import Mathlib

/-!
# Verification of the web-page → Markdown batch tool

Shallow embedding of `src/生成markdown.py`: the filename-derivation routine
`MarkdownMerger.get_filename_from_url`, the background fetch loop
`FetchThread.run`, the split/merged save logic of
`MarkdownMerger.save_markdown`, and the session-state handlers
`start_fetch` / `fetch_completed`.  External collaborators (the HTTP
transport and the HTML→Markdown converter) are abstracted as oracle
functions passed in explicitly.
-/

namespace WebToMarkdown

/-! ## Python string splitting

`pySplit sep s` embeds Python's `s.split(sep)` for a non-empty separator:
scan left to right, split at every (non-overlapping) occurrence of `sep`.
The recursion is driven by a character-count fuel so that it is structural
(and hence evaluates inside the kernel); the fuel `s.length` is always
sufficient because every step consumes at least one character. -/

def splitOnStrAux (sep : List Char) : Nat → List Char → List Char → List (List Char)
  | _, [], acc => [acc.reverse]
  | 0, l, acc => [acc.reverse ++ l]
  | fuel + 1, c :: cs, acc =>
    if sep.isPrefixOf (c :: cs) then
      acc.reverse :: splitOnStrAux sep fuel (cs.drop (sep.length - 1)) []
    else
      splitOnStrAux sep fuel cs (c :: acc)

def pySplit (sep s : String) : List String :=
  (splitOnStrAux sep.data s.data.length s.data []).map (fun l => String.mk l)

/-- `s.split(sep)` never returns an empty list (Python guarantees the same). -/
theorem splitOnStrAux_ne_nil (sep : List Char) :
    ∀ (fuel : Nat) (l acc : List Char), splitOnStrAux sep fuel l acc ≠ [] := by
  intro fuel
  induction fuel with
  | zero =>
    intro l acc
    cases l <;> simp [splitOnStrAux]
  | succ n ih =>
    intro l acc
    cases l with
    | nil => simp [splitOnStrAux]
    | cons c cs =>
      by_cases h : sep.isPrefixOf (c :: cs) <;> simp [splitOnStrAux, h, ih]

theorem pySplit_ne_nil (sep s : String) : pySplit sep s ≠ [] := by
  unfold pySplit
  simp [splitOnStrAux_ne_nil]

/-! ## Filename derivation (`MarkdownMerger.get_filename_from_url`) -/

/-- The character class of `re.sub(r'[<>:"/\\|?*]', '_', filename)`. -/
def illegalChars : List Char := ['<', '>', ':', '"', '/', '\\', '|', '?', '*']

def cleanChar (c : Char) : Char := if c ∈ illegalChars then '_' else c

/-- `re.sub(r'[<>:"/\\|?*]', '_', s)`: replace each illegal character by `'_'`. -/
def sanitize (s : String) : String := ⟨s.data.map cleanChar⟩

/-- `s.rsplit('.', 1)[0] if '.' in s else s`: drop everything from the last
`'.'` on (the apparent extension), if any. -/
def stripLastDot (s : String) : String :=
  if '.' ∈ s.data then ⟨((s.data.reverse.dropWhile (fun c => c != '.')).tail).reverse⟩
  else s

/-- `MarkdownMerger.get_filename_from_url` (src/生成markdown.py, lines 241–265). -/
def get_filename_from_url (url : String) : String :=
  -- path = url.split('://')[-1].split('?')[0].split('#')[0]
  let path := ((pySplit "#" (((pySplit "?" ((pySplit "://" url).getLastD ""))).headD "")).headD "")
  -- parts = path.split('/')
  let parts := pySplit "/" path
  -- domain = parts[0] if parts else 'page'
  let domain := parts.headD "page"
  -- path_parts = [p for p in parts[1:] if p]
  let path_parts := (parts.drop 1).filter (fun p => p ≠ "")
  let filename :=
    if path_parts.length ≥ 2 then
      (path_parts.dropLast.getLastD "") ++ "_" ++ (path_parts.getLastD "")
    else if path_parts.length = 1 then
      ((pySplit "." domain).headD "") ++ "_" ++ (path_parts.headD "")
    else
      (pySplit "." domain).headD ""
  let filename := sanitize filename
  let filename := stripLastDot filename
  if filename = "" then "page" else filename

/-! ## The spec's filename-derivation algorithm

Two renderings of §4.2's eight-step algorithm.  `deriveNameSpec` follows the
spec's words literally; in particular step 1 "strip the URL's scheme prefix"
removes everything up to and including the *first* occurrence of `"://"`.
`deriveNameSpecAmended` is the same algorithm with step 1 amended to match
the code (`url.split('://')[-1]`): keep the substring after the *last*
occurrence of `"://"`. -/

/-- The host's first label: the substring before its first `'.'` (spec §4.2 step 4). -/
def firstLabel (host : String) : String := (pySplit "." host).headD ""

/-- Steps 2–8 of the spec's filename algorithm, applied to the scheme/query/
fragment-stripped remainder of the URL. -/
def deriveNameSteps2to8 (rest : String) : String :=
  let segs := pySplit "/" rest
  let host := segs.headD ""
  let pathSegs := (segs.drop 1).filter (fun p => p ≠ "")
  let base :=
    if pathSegs.length ≥ 2 then
      (pathSegs.dropLast.getLastD "") ++ "_" ++ (pathSegs.getLastD "")
    else if pathSegs.length = 1 then
      firstLabel host ++ "_" ++ (pathSegs.headD "")
    else
      firstLabel host
  let base := sanitize base
  let base := stripLastDot base
  if base = "" then "page" else base

/-- Modelled from the spec: §4.2 step 1, "Strip the URL's scheme prefix" —
remove everything up to and including the first occurrence of `"://"`
(the URL is unchanged when it has no scheme). -/
def stripScheme (url : String) : String :=
  match pySplit "://" url with
  | [] => url
  | [s] => s
  | _ :: rest => String.intercalate "://" rest

/-- Modelled from the spec: the literal eight-step filename-derivation
algorithm of §4.2. -/
def deriveNameSpec (url : String) : String :=
  deriveNameSteps2to8 ((pySplit "#" ((pySplit "?" (stripScheme url)).headD "")).headD "")

/-- The spec's algorithm with step 1 amended to the code's behaviour: take the
substring after the last occurrence of `"://"` before stripping the query
string and fragment. -/
def deriveNameSpecAmended (url : String) : String :=
  deriveNameSteps2to8
    ((pySplit "#" ((pySplit "?" ((pySplit "://" url).getLastD "")).headD "")).headD "")

/-! ## Cleanliness of derived names -/

theorem cleanChar_cleanChar (c : Char) : cleanChar (cleanChar c) = cleanChar c := by
  unfold cleanChar
  by_cases h : c ∈ illegalChars <;> simp [h]

theorem cleanChar_of_mem_map {c : Char} {l : List Char} (h : c ∈ l.map cleanChar) :
    cleanChar c = c := by
  obtain ⟨a, _, rfl⟩ := List.mem_map.1 h
  exact cleanChar_cleanChar a

theorem sanitize_of_clean {s : String} (h : ∀ c ∈ s.data, cleanChar c = c) :
    sanitize s = s := by
  unfold sanitize
  rw [List.map_congr_left h]
  simp

theorem mem_data_stripLastDot {c : Char} {s : String} (h : c ∈ (stripLastDot s).data) :
    c ∈ s.data := by
  unfold stripLastDot at h
  by_cases hd : '.' ∈ s.data
  · rw [if_pos hd] at h
    have h1 : c ∈ (s.data.reverse.dropWhile (fun c => c != '.')).tail := by
      simpa using List.mem_reverse.1 h
    have h2 : c ∈ s.data.reverse :=
      (List.dropWhile_sublist _).subset ((List.tail_sublist _).subset h1)
    exact List.mem_reverse.1 h2
  · rwa [if_neg hd] at h

theorem sanitize_finalize (x : String) :
    sanitize (if stripLastDot (sanitize x) = "" then "page" else stripLastDot (sanitize x))
      = if stripLastDot (sanitize x) = "" then "page" else stripLastDot (sanitize x) := by
  by_cases h : stripLastDot (sanitize x) = ""
  · rw [if_pos h]
    rfl
  · rw [if_neg h]
    refine sanitize_of_clean (fun c hc => ?_)
    exact cleanChar_of_mem_map (mem_data_stripLastDot hc)

/-! ## Claim theorems: filename derivation -/

/-- C1: `get_filename_from_url` computes the base name by the spec's 8-step
algorithm with step 1 amended to the code's behaviour (taking the substring
after the *last* occurrence of `"://"`), and the three worked examples of
the spec hold. -/
theorem C1_get_filename_matches_amended_spec :
    (∀ url, get_filename_from_url url = deriveNameSpecAmended url) ∧
    get_filename_from_url "https://example.com/docs/guide.html" = "docs_guide" ∧
    get_filename_from_url "https://example.com/about" = "example_about" ∧
    get_filename_from_url "https://example.com" = "example" := by
  refine ⟨fun url => ?_, by decide, by decide, by decide⟩
  simp only [get_filename_from_url, deriveNameSpecAmended, deriveNameSteps2to8, firstLabel]
  cases h : pySplit "/"
      ((pySplit "#" ((pySplit "?" ((pySplit "://" url).getLastD "")).headD "")).headD "") with
  | nil => exact absurd h (pySplit_ne_nil _ _)
  | cons a t => simp [List.headD]

set_option maxHeartbeats 2000000 in
/-- C1 counterexample: on a URL whose query string itself contains `"://"`,
the code (which splits on `"://"` and keeps the *last* piece) disagrees with
the spec's literal step 1 (strip the scheme *prefix*): the code yields
`"example_home"`, the spec's algorithm `"example_login"`. -/
theorem C1_counterexample_scheme_strip :
    get_filename_from_url "https://example.com/login?next=https://example.com/home"
      ≠ deriveNameSpec "https://example.com/login?next=https://example.com/home" := by
  decide

/-- C8: re-applying the illegal-character substitution to a name returned by
`get_filename_from_url` is a no-op. -/
theorem C8_sanitize_idempotent_on_derived_names (url : String) :
    sanitize (get_filename_from_url url) = get_filename_from_url url := by
  unfold get_filename_from_url
  exact sanitize_finalize _

/-! ## The batch fetcher (`FetchThread`)

The HTTP transport (`requests.get`) and the HTML→Markdown converter
(`html2text`) are external libraries; they are abstracted as oracles
`http : String → Except String HttpResp` and
`convert : String → Except String String`, an `Except.error` carrying the
raised exception's description `str(e)`. -/

/-- An HTTP response: status code and (decoded) body text. -/
structure HttpResp where
  status : Nat
  body : String
deriving DecidableEq

/-- One per-URL outcome record, `{'url': ..., 'content': ..., 'success': ...}`. -/
structure FetchResult where
  url : String
  content : String
  success : Bool
deriving DecidableEq

/-- Modelled from the spec: `response.raise_for_status()` belongs to the
external `requests` library; per spec §6 the HTTP collaborator "must
raise/report on non-2xx status".  `statusMsg` gives the description of the
error raised for a non-2xx response. -/
def raiseForStatus (statusMsg : HttpResp → String) (r : HttpResp) :
    Except String HttpResp :=
  if 200 ≤ r.status ∧ r.status < 300 then .ok r else .error (statusMsg r)

/-- The body of the `try:` block of `FetchThread.run` for one URL: perform the
GET, check the status, convert the body to Markdown. -/
def fetchEx (http : String → Except String HttpResp) (statusMsg : HttpResp → String)
    (convert : String → Except String String) (url : String) : Except String String :=
  match http url with
  | .error e => .error e
  | .ok r =>
    match raiseForStatus statusMsg r with
    | .error e => .error e
    | .ok r' => convert r'.body

/-- One iteration of the loop in `FetchThread.run`: a successful fetch yields
`{url, markdown, success := True}`; a raised exception `e` is caught and
yields `{url, '错误: ' + str(e), success := False}`. -/
def fetchOne (http : String → Except String HttpResp) (statusMsg : HttpResp → String)
    (convert : String → Except String String) (url : String) : FetchResult :=
  match fetchEx http statusMsg convert url with
  | .ok md => ⟨url, md, true⟩
  | .error e => ⟨url, "错误: " ++ e, false⟩

/-- A notification emitted by the worker: `self.progress.emit(i+1, total)` or
`self.finished.emit(results)`. -/
inductive Event where
  | progress (current total : Nat)
  | finished (results : List FetchResult)
deriving DecidableEq

/-- The loop of `FetchThread.run`: accumulate one result per URL and emit a
progress notification after each; returns the accumulated results and the
emitted progress events. -/
def runAux (f : String → FetchResult) (total : Nat) :
    List String → Nat → List FetchResult → List FetchResult × List Event
  | [], _, results => (results, [])
  | url :: rest, i, results =>
    let results' := results ++ [f url]
    let out := runAux f total rest (i + 1) results'
    (out.1, Event.progress (i + 1) total :: out.2)

/-- The result batch accumulated by `FetchThread.run`. -/
def runResults (f : String → FetchResult) (urls : List String) : List FetchResult :=
  (runAux f urls.length urls 0 []).1

/-- `FetchThread.run`: the full emitted event trace — per-URL progress
notifications followed by the single `finished` notification carrying the
accumulated batch. -/
def FetchThread.run (f : String → FetchResult) (urls : List String) : List Event :=
  (runAux f urls.length urls 0 []).2 ++ [Event.finished (runAux f urls.length urls 0 []).1]

theorem runAux_eq (f : String → FetchResult) (total : Nat) :
    ∀ (urls : List String) (i : Nat) (acc : List FetchResult),
      runAux f total urls i acc =
        (acc ++ urls.map f,
         (List.range urls.length).map (fun j => Event.progress (i + 1 + j) total)) := by
  intro urls
  induction urls with
  | nil => intro i acc; simp [runAux]
  | cons u us ih =>
    intro i acc
    simp only [runAux, ih, List.map_cons, List.length_cons, List.range_succ_eq_map,
      List.map_map, Prod.mk.injEq]
    refine ⟨by simp, ?_⟩
    refine congrArg₂ List.cons (by simp [Nat.add_comm, Nat.add_assoc]) ?_
    refine List.map_congr_left (fun j _ => ?_)
    simp [Function.comp]
    omega

theorem runResults_eq (f : String → FetchResult) (urls : List String) :
    runResults f urls = urls.map f := by
  simp [runResults, runAux_eq]

theorem fetchOne_url (http : String → Except String HttpResp) (statusMsg : HttpResp → String)
    (convert : String → Except String String) (url : String) :
    (fetchOne http statusMsg convert url).url = url := by
  unfold fetchOne
  cases fetchEx http statusMsg convert url <;> rfl

/-! ## Decimal rendering of the collision counter

`f"{filename}_{counter}.md"` renders `counter` in decimal.  `natRepr` embeds
Python's `str` on non-negative integers; a digit-parsing round trip gives its
injectivity, which the no-overwrite argument needs. -/

def digitChar (d : Nat) : Char := Char.ofNat (48 + d)

def natReprAux : Nat → Nat → List Char
  | 0, _ => []
  | fuel + 1, n =>
    if n < 10 then [digitChar n]
    else natReprAux fuel (n / 10) ++ [digitChar (n % 10)]

/-- Python's `str(n)` for a natural number `n`: decimal digits. -/
def natRepr (n : Nat) : String := ⟨natReprAux (n + 1) n⟩

def parseDigits (l : List Char) : Nat :=
  l.foldl (fun a c => a * 10 + (c.toNat - 48)) 0

theorem toNat_digitChar {d : Nat} (h : d < 10) : (digitChar d).toNat = 48 + d := by
  interval_cases d <;> decide

theorem parseDigits_append_digit (l : List Char) (c : Char) :
    parseDigits (l ++ [c]) = parseDigits l * 10 + (c.toNat - 48) := by
  simp [parseDigits, List.foldl_append]

theorem parseDigits_natReprAux :
    ∀ (fuel n : Nat), n < fuel → parseDigits (natReprAux fuel n) = n := by
  intro fuel
  induction fuel with
  | zero => intro n hn; omega
  | succ fuel ih =>
    intro n hn
    unfold natReprAux
    by_cases h : n < 10
    · rw [if_pos h]
      simp [parseDigits, toNat_digitChar h]
    · rw [if_neg h]
      have hdiv : n / 10 < n := Nat.div_lt_self (by omega) (by omega)
      rw [parseDigits_append_digit, ih (n / 10) (by omega),
        toNat_digitChar (Nat.mod_lt n (by omega))]
      omega

theorem natRepr_injective : Function.Injective natRepr := by
  intro a b h
  have hd : natReprAux (a + 1) a = natReprAux (b + 1) b := congrArg String.data h
  have := congrArg parseDigits hd
  rwa [parseDigits_natReprAux (a + 1) a (by omega),
    parseDigits_natReprAux (b + 1) b (by omega)] at this

/-! ## Split-save collision resolution (`MarkdownMerger.save_markdown`, split branch) -/

/-- The candidate file name `f"{base}_{counter}.md"` tried by the collision
loop. -/
def candName (base : String) (k : Nat) : String := base ++ "_" ++ natRepr k ++ ".md"

theorem candName_injective (base : String) : Function.Injective (candName base) := by
  intro k1 k2 h
  have hd := congrArg String.data h
  simp only [candName, String.data_append] at hd
  have h2 := List.append_cancel_right hd
  have h3 := List.append_cancel_left h2
  exact natRepr_injective (String.ext h3)

/-- The `while file_path.exists(): file_path = f"{filename}_{counter}.md"; counter += 1`
loop, driven by a fuel (the loop terminates because infinitely many distinct
candidate names exist while the directory is finite; `dir.length + 1` tries
always suffice). -/
def findFreeName (dir : List String) (base : String) : Nat → Nat → String
  | counter, 0 => candName base counter
  | counter, fuel + 1 =>
    if candName base counter ∈ dir then findFreeName dir base (counter + 1) fuel
    else candName base counter

/-- The name a split save writes for base name `base` into a directory whose
entries are `dir`: `f"{base}.md"` when free, else the first free
`f"{base}_{k}.md"`. -/
def resolvePath (dir : List String) (base : String) : String :=
  if (base ++ ".md") ∈ dir then findFreeName dir base 1 (dir.length + 1)
  else base ++ ".md"

theorem exists_free_candidate (dir : List String) (base : String) :
    ∃ j, j < dir.length + 1 ∧ candName base (1 + j) ∉ dir := by
  by_contra hall
  push_neg at hall
  have hmaps : ∀ j ∈ Finset.range (dir.length + 1),
      candName base (1 + j) ∈ dir.toFinset := by
    intro j hj
    rw [List.mem_toFinset]
    exact hall j (Finset.mem_range.1 hj)
  have hcard : dir.toFinset.card < (Finset.range (dir.length + 1)).card := by
    have hle := dir.toFinset_card_le
    rw [Finset.card_range]
    omega
  obtain ⟨a, _, b, _, hne, heq⟩ :=
    Finset.exists_ne_map_eq_of_card_lt_of_maps_to hcard hmaps
  have := candName_injective base heq
  omega

theorem findFreeName_not_mem (dir : List String) (base : String) :
    ∀ (fuel counter : Nat), (∃ j, j < fuel ∧ candName base (counter + j) ∉ dir) →
      findFreeName dir base counter fuel ∉ dir := by
  intro fuel
  induction fuel with
  | zero =>
    intro counter h
    obtain ⟨j, hj, _⟩ := h
    omega
  | succ fuel ih =>
    intro counter h
    obtain ⟨j, hj, hfree⟩ := h
    unfold findFreeName
    by_cases hmem : candName base counter ∈ dir
    · rw [if_pos hmem]
      apply ih
      have hj0 : j ≠ 0 := by
        rintro rfl
        exact hfree (by simpa using hmem)
      exact ⟨j - 1, by omega, by
        have : counter + 1 + (j - 1) = counter + j := by omega
        rwa [this]⟩
    · rw [if_neg hmem]
      exact hmem

/-- The collision loop's result is never the name of an existing file. -/
theorem resolvePath_not_mem (dir : List String) (base : String) :
    resolvePath dir base ∉ dir := by
  unfold resolvePath
  by_cases h : (base ++ ".md") ∈ dir
  · rw [if_pos h]
    apply findFreeName_not_mem
    obtain ⟨j, hj, hfree⟩ := exists_free_candidate dir base
    exact ⟨j, hj, hfree⟩
  · rw [if_neg h]
    exact h

/-! ## The split save

The target directory is modelled as an association list of
`(file name, file content)` pairs; `writeOk` is the oracle telling whether
writing a given path succeeds (a failed write is logged and skipped). -/

def fileNames (fs : List (String × String)) : List String := fs.map Prod.fst

/-- The split branch of `MarkdownMerger.save_markdown`: for every successful
result, derive the base name, resolve collisions against the current
directory contents, and write `# {url}\n\n` followed by the content; count
the successful writes.  Returns the final directory contents and the count. -/
def save_markdown_split (writeOk : String → Bool) :
    List (String × String) → List FetchResult → List (String × String) × Nat
  | fs, [] => (fs, 0)
  | fs, r :: rest =>
    if r.success then
      let path := resolvePath (fileNames fs) (get_filename_from_url r.url)
      if writeOk path then
        let out := save_markdown_split writeOk
          (fs ++ [(path, "# " ++ r.url ++ "\n\n" ++ r.content)]) rest
        (out.1, out.2 + 1)
      else save_markdown_split writeOk fs rest
    else save_markdown_split writeOk fs rest

/-- The final dialog `f'成功保存 {success_count}/{len(self.markdown_results)} 个文件'`:
the reported tally (written, total). -/
def save_markdown_split_report (writeOk : String → Bool) (fs : List (String × String))
    (results : List FetchResult) : Nat × Nat :=
  ((save_markdown_split writeOk fs results).2, results.length)

theorem findFreeName_succ (dir : List String) (base : String) (counter fuel : Nat) :
    findFreeName dir base counter (fuel + 1) =
      if candName base counter ∈ dir then findFreeName dir base (counter + 1) fuel
      else candName base counter := rfl

theorem candName_one (b : String) : candName b 1 = b ++ "_1.md" := by
  apply String.ext
  simp only [candName, String.data_append, List.append_assoc]
  congr 1

theorem append_one_md_ne (b : String) : (b ++ "_1.md") ≠ (b ++ ".md") := by
  intro h
  have hlen := congrArg String.length h
  simp only [String.length_append] at hlen
  have h5 : ("_1.md" : String).length = 5 := rfl
  have h3 : (".md" : String).length = 3 := rfl
  rw [h5, h3] at hlen
  omega

/-- C4: the split save never overwrites: the collision-resolved path is never
an existing file's name, and writing two successful results that derive the
same base name into an empty directory leaves the first file (and its
content) intact and stores the second under the `_1`-suffixed name. -/
theorem C4_split_save_never_overwrites (fs : List (String × String)) (base : String)
    (r1 r2 : FetchResult) (h1 : r1.success = true) (h2 : r2.success = true)
    (hb1 : get_filename_from_url r1.url = base)
    (hb2 : get_filename_from_url r2.url = base) :
    resolvePath (fileNames fs) base ∉ fileNames fs ∧
    (save_markdown_split (fun _ => true) [] [r1, r2]).1 =
      [(base ++ ".md", "# " ++ r1.url ++ "\n\n" ++ r1.content),
       (base ++ "_1.md", "# " ++ r2.url ++ "\n\n" ++ r2.content)] := by
  refine ⟨resolvePath_not_mem _ _, ?_⟩
  have hp1 : resolvePath (fileNames []) (get_filename_from_url r1.url) = base ++ ".md" := by
    rw [hb1]
    simp [resolvePath, fileNames]
  have hp2 : resolvePath
      (fileNames [(base ++ ".md", "# " ++ r1.url ++ "\n\n" ++ r1.content)])
      (get_filename_from_url r2.url) = base ++ "_1.md" := by
    rw [hb2]
    have hfn : fileNames [(base ++ ".md", "# " ++ r1.url ++ "\n\n" ++ r1.content)]
        = [base ++ ".md"] := rfl
    rw [hfn]
    unfold resolvePath
    rw [if_pos (List.mem_singleton.2 rfl)]
    have hlen : ([base ++ ".md"] : List String).length + 1 = 1 + 1 := rfl
    rw [hlen, findFreeName_succ]
    rw [if_neg (fun hmem =>
      append_one_md_ne base (by rw [← candName_one base]; exact List.mem_singleton.1 hmem))]
    exact candName_one base
  simp [save_markdown_split, h1, h2, hp1, hp2]

/-- Two successful results for the same URL (hence the same derived base name). -/
def r1C4 : FetchResult := ⟨"https://example.com/docs/guide.html", "one", true⟩

def r2C4 : FetchResult := ⟨"https://example.com/docs/guide.html", "two", true⟩

/-- C4 witness: saving both results writes `docs_guide.md` and `docs_guide_1.md`. -/
theorem C4_split_save_never_overwrites_witness :
    resolvePath (fileNames [("a.md", "x")]) "docs_guide" ∉ fileNames [("a.md", "x")] ∧
    (save_markdown_split (fun _ => true) [] [r1C4, r2C4]).1 =
      [("docs_guide" ++ ".md", "# " ++ r1C4.url ++ "\n\n" ++ r1C4.content),
       ("docs_guide" ++ "_1.md", "# " ++ r2C4.url ++ "\n\n" ++ r2C4.content)] :=
  C4_split_save_never_overwrites [("a.md", "x")] "docs_guide" r1C4 r2C4 rfl rfl
    (by decide) (by decide)

/-! ## C5: what the split save writes and reports -/

theorem save_split_contents (results : List FetchResult) :
    ∀ fs, ((save_markdown_split (fun _ => true) fs results).1).map Prod.snd
      = fs.map Prod.snd
        ++ (results.filter (fun r => r.success)).map
            (fun r => "# " ++ r.url ++ "\n\n" ++ r.content) := by
  induction results with
  | nil => intro fs; simp [save_markdown_split]
  | cons r rest ih =>
    intro fs
    by_cases h : r.success = true
    · simp [save_markdown_split, h, ih, List.filter_cons]
    · simp [save_markdown_split, h, ih, List.filter_cons]

theorem save_split_count (results : List FetchResult) :
    ∀ fs, (save_markdown_split (fun _ => true) fs results).2
      = (results.filter (fun r => r.success)).length := by
  induction results with
  | nil => intro fs; simp [save_markdown_split]
  | cons r rest ih =>
    intro fs
    by_cases h : r.success = true
    · simp [save_markdown_split, h, ih, List.filter_cons]
    · simp [save_markdown_split, h, ih, List.filter_cons]

/-- C5 (amended): when every write succeeds, the split save writes exactly one
file per `success = true` result (skipping failures), each containing the
URL heading followed by the content, and the reported tally is the number of
files written versus the **total number of results in the batch** (not the
number of writes tried). -/
theorem C5_split_files_and_tally (results : List FetchResult) :
    ((save_markdown_split (fun _ => true) [] results).1).map Prod.snd
      = (results.filter (fun r => r.success)).map
          (fun r => "# " ++ r.url ++ "\n\n" ++ r.content) ∧
    save_markdown_split_report (fun _ => true) [] results
      = ((results.filter (fun r => r.success)).length, results.length) := by
  constructor
  · simpa using save_split_contents results []
  · unfold save_markdown_split_report
    rw [save_split_count results []]

/-- A two-result batch whose second fetch failed. -/
def resC5 : List FetchResult :=
  [⟨"https://ok.test/a", "A", true⟩, ⟨"https://bad.test/x", "错误: boom", false⟩]

/-- C5 counterexample: the reported denominator is the length of the whole
result batch (here 2), not the number of writes tried (here 1: failed
fetches are skipped before any write is attempted). -/
theorem C5_counterexample_tally_denominator :
    (save_markdown_split_report (fun _ => true) [] resC5).2
      ≠ (resC5.filter (fun r => r.success)).length := by
  decide

/-! ## The interactive session state (`MarkdownMerger`)

Only the state the claims speak about is modelled: the URL list, the current
result batch, the preview text, the enabled state of the two actions, the
progress bar's visibility, and the status-bar message. -/

structure AppState where
  url_list : List String
  markdown_results : List FetchResult
  preview_text : String
  fetch_btn_enabled : Bool
  save_btn_enabled : Bool
  progress_visible : Bool
  status_message : String
deriving DecidableEq

/-- `MarkdownMerger.start_fetch`: with an empty URL list, warn and return
without touching anything; otherwise disable both actions, show the progress
bar, and launch a worker that owns a copy of the current URL list (returned
as the second component). -/
def start_fetch (s : AppState) : AppState × Option (List String) :=
  if s.url_list = [] then (s, none)
  else
    ({ s with
        fetch_btn_enabled := false
        save_btn_enabled := false
        progress_visible := true
        status_message := "正在抓取..." },
     some s.url_list)

/-- The preview string assembled by `MarkdownMerger.fetch_completed`:
`''.join(merged_content)` where `merged_content` collects, per result, the
URL heading, the content, and the rule separator. -/
def mergedPreview (results : List FetchResult) : String :=
  String.join ((results.map (fun r =>
    ["# " ++ r.url ++ "\n\n", r.content, "\n\n---\n\n"])).flatten)

/-- `MarkdownMerger.fetch_completed`: store the batch, show the merged
preview, re-enable both actions, hide the progress bar, report the tally. -/
def fetch_completed (s : AppState) (results : List FetchResult) : AppState :=
  { s with
      markdown_results := results
      preview_text := mergedPreview results
      fetch_btn_enabled := true
      save_btn_enabled := true
      progress_visible := false
      status_message := "完成: " ++ natRepr ((results.filter (fun r => r.success)).length)
        ++ "/" ++ natRepr results.length ++ " 成功" }

/-- The merged branch of `MarkdownMerger.save_markdown`: nothing happens
without results or when the dialog is cancelled; otherwise the current
preview text is written to the chosen destination.  The returned pair is the
performed write `(path, content)`. -/
def save_markdown_merged (s : AppState) (dest : Option String) :
    Option (String × String) :=
  if s.markdown_results = [] then none
  else
    match dest with
    | none => none
    | some d => some (d, s.preview_text)

theorem join_cons (a : String) (l : List String) :
    String.join (a :: l) = a ++ String.join l := by
  apply String.ext
  simp [String.join_eq, String.data_append]

theorem mergedPreview_eq (results : List FetchResult) :
    mergedPreview results
      = String.join (results.map (fun r =>
          "# " ++ r.url ++ "\n\n" ++ r.content ++ "\n\n---\n\n")) := by
  induction results with
  | nil => rfl
  | cons r rest ih =>
    simp only [mergedPreview, List.map_cons, List.flatten_cons, List.cons_append,
      List.nil_append] at ih ⊢
    rw [join_cons, join_cons, join_cons, join_cons, ih]
    simp [String.append_assoc]

/-! ## Claim theorems: fetch pipeline and session -/

/-- C2: launching a fetch hands the worker the URL-list order captured at
launch time, and the completed batch has exactly one result per input URL,
in input order (mapping each result to its `url` field gives back the list). -/
theorem C2_batch_preserves_urls (http : String → Except String HttpResp)
    (statusMsg : HttpResp → String) (convert : String → Except String String)
    (s : AppState) (h : s.url_list ≠ []) :
    (start_fetch s).2 = some s.url_list ∧
    (runResults (fetchOne http statusMsg convert) s.url_list).length
      = s.url_list.length ∧
    (runResults (fetchOne http statusMsg convert) s.url_list).map FetchResult.url
      = s.url_list := by
  refine ⟨by simp [start_fetch, h], ?_, ?_⟩
  · simp [runResults_eq]
  · rw [runResults_eq, List.map_map]
    exact List.map_congr_left (fun u _ => fetchOne_url http statusMsg convert u) |>.trans
      (List.map_id _)

/-- C2 witness. -/
theorem C2_batch_preserves_urls_witness :
    (start_fetch ⟨["https://a.test/x"], [], "", true, false, false, "就绪"⟩).2
      = some ["https://a.test/x"] ∧
    (runResults (fetchOne (fun _ => Except.error "boom") (fun _ => "bad status")
        (fun b => Except.ok b)) ["https://a.test/x"]).length = 1 ∧
    (runResults (fetchOne (fun _ => Except.error "boom") (fun _ => "bad status")
        (fun b => Except.ok b)) ["https://a.test/x"]).map FetchResult.url
      = ["https://a.test/x"] := by
  have := C2_batch_preserves_urls (fun _ => Except.error "boom") (fun _ => "bad status")
    (fun b => Except.ok b) ⟨["https://a.test/x"], [], "", true, false, false, "就绪"⟩
    (by decide)
  simpa using this

/-- C3: no per-URL failure shrinks the batch (one result per URL regardless of
failures); any raised error `e` — network error, conversion error, and in
particular the status error raised for every non-2xx response — is recorded
as `success = false` with `'错误: ' + str(e)` as the content. -/
theorem C3_failures_recorded_not_fatal (http : String → Except String HttpResp)
    (statusMsg : HttpResp → String) (convert : String → Except String String)
    (urls : List String) :
    (runResults (fetchOne http statusMsg convert) urls).length = urls.length ∧
    (∀ url e, fetchEx http statusMsg convert url = .error e →
      fetchOne http statusMsg convert url = ⟨url, "错误: " ++ e, false⟩) ∧
    (∀ url r, http url = .ok r → ¬(200 ≤ r.status ∧ r.status < 300) →
      fetchOne http statusMsg convert url = ⟨url, "错误: " ++ statusMsg r, false⟩) := by
  refine ⟨by simp [runResults_eq], fun url e he => ?_, fun url r hr hst => ?_⟩
  · unfold fetchOne
    rw [he]
  · have hex : fetchEx http statusMsg convert url = .error (statusMsg r) := by
      simp only [fetchEx, hr, raiseForStatus]
      rw [if_neg hst]
    unfold fetchOne
    rw [hex]

/-- C3 witness: a 404 response is recorded as a failed result carrying the
status error's description, and the singleton batch still has one result. -/
theorem C3_failures_recorded_not_fatal_witness :
    (runResults (fetchOne (fun _ => Except.ok ⟨404, "nope"⟩)
        (fun _ => "404 Client Error") (fun b => Except.ok b)) ["https://bad.test/x"]).length
      = 1 ∧
    fetchOne (fun _ => Except.ok ⟨404, "nope"⟩) (fun _ => "404 Client Error")
        (fun b => Except.ok b) "https://bad.test/x"
      = ⟨"https://bad.test/x", "错误: " ++ "404 Client Error", false⟩ := by
  have h := C3_failures_recorded_not_fatal (fun _ => Except.ok ⟨404, "nope"⟩)
    (fun _ => "404 Client Error") (fun b => Except.ok b) ["https://bad.test/x"]
  exact ⟨h.1, h.2.2 "https://bad.test/x" ⟨404, "nope"⟩ rfl (by decide)⟩

/-- C7: the trace of a batch of `n` URLs is exactly `n` progress
notifications, the `i`-th (1-based) carrying `(i, n)`, in URL-list order,
followed by the single `finished` notification carrying the batch. -/
theorem C7_progress_trace (f : String → FetchResult) (urls : List String) :
    FetchThread.run f urls
      = (List.range urls.length).map
          (fun j => Event.progress (j + 1) urls.length)
        ++ [Event.finished (urls.map f)] := by
  unfold FetchThread.run
  rw [runAux_eq]
  simp only [List.nil_append]
  refine congrArg₂ (· ++ ·) (List.map_congr_left (fun j _ => ?_)) rfl
  have : 0 + 1 + j = j + 1 := by omega
  rw [this]

/-- C6: for every completed (non-empty) batch, the merged-mode save writes to
the chosen destination exactly the concatenation, in batch order, of the URL
heading, a blank line, the content, and the horizontal-rule separator. -/
theorem C6_merged_document (s : AppState) (results : List FetchResult) (d : String)
    (h : results ≠ []) :
    save_markdown_merged (fetch_completed s results) (some d)
      = some (d, String.join (results.map (fun r =>
          "# " ++ r.url ++ "\n\n" ++ r.content ++ "\n\n---\n\n"))) := by
  unfold save_markdown_merged fetch_completed
  simp only [if_neg h]
  rw [mergedPreview_eq]

/-- C6 witness: the merged document for a two-result batch (second failed). -/
theorem C6_merged_document_witness :
    save_markdown_merged
        (fetch_completed ⟨[], [], "", true, false, false, "就绪"⟩ resC5) (some "merged.md")
      = some ("merged.md",
          "# https://ok.test/a\n\nA\n\n---\n\n# https://bad.test/x\n\n错误: boom\n\n---\n\n")
    := by
  have := C6_merged_document ⟨[], [], "", true, false, false, "就绪"⟩ resC5 "merged.md"
    (by decide)
  rw [this]
  rfl

/-- C9: the merged-mode save re-serializes the preview text: whenever a write
happens, the written content is exactly the `preview_text` of the current
state, and after `fetch_completed` that preview is the merged document of
the stored batch — so the saved merged file is identical to the preview. -/
theorem C9_merged_save_writes_preview (s : AppState) (d : String)
    (h : s.markdown_results ≠ []) :
    save_markdown_merged s (some d) = some (d, s.preview_text) ∧
    (∀ s' results, results ≠ [] →
      save_markdown_merged (fetch_completed s' results) (some d)
        = some (d, (fetch_completed s' results).preview_text)) := by
  constructor
  · unfold save_markdown_merged
    rw [if_neg h]
  · intro s' results hres
    unfold save_markdown_merged fetch_completed
    simp only [if_neg hres]

/-- C9 witness. -/
theorem C9_merged_save_writes_preview_witness :
    save_markdown_merged ⟨[], resC5, "PREVIEW", true, true, false, ""⟩ (some "out.md")
      = some ("out.md", "PREVIEW") := by
  exact (C9_merged_save_writes_preview ⟨[], resC5, "PREVIEW", true, true, false, ""⟩
    "out.md" (by decide)).1

/-- C10: invoking start-fetch with an empty URL list launches no worker and
leaves the whole session state — result batch, preview, button states,
progress bar, status — unchanged. -/
theorem C10_empty_url_list_rejected (s : AppState) (h : s.url_list = []) :
    start_fetch s = (s, none) := by
  unfold start_fetch
  rw [if_pos h]

/-- C10 witness. -/
theorem C10_empty_url_list_rejected_witness :
    start_fetch ⟨[], resC5, "PREVIEW", true, true, false, "完成"⟩
      = (⟨[], resC5, "PREVIEW", true, true, false, "完成"⟩, none) := by
  exact C10_empty_url_list_rejected ⟨[], resC5, "PREVIEW", true, true, false, "完成"⟩ rfl

end WebToMarkdown
